import Mathlib

/-!
Verification development for the limit-up stock selector (`src/zt_selector.py`).

The program fetches a daily quote snapshot, filters it through five exclusion
stages (`ZTSelector.filter_stocks`, lines 218-347), scores and sorts the
survivors (`ZTSelector.score_stocks`, lines 349-419), truncates to the top N
(`ZTSelector.run`, line 456), and validates its configuration
(`ZTSelector._validate_config`, lines 126-180).  This file gives a shallow
embedding of those functions and proves the specification's claims about them.

Raw quote records are Python dicts whose field values may be strings or
numbers, or absent.  Python floats are modelled as rationals; `float(...)`
applied to a string is modelled by `parseDecimal`, a parser for plain decimal
literals (optional sign, digits, optional fractional part) — the only string
shapes this development evaluates it on.
-/

/-- A raw Python field value: either a string or a number (floats modelled
as rationals). -/
inductive PyVal where
  | pstr (s : String)
  | pnum (q : ℚ)
deriving DecidableEq

/-- Numeric value of a decimal digit character, `none` on a non-digit. -/
def charDigit (c : Char) : Option ℕ :=
  if '0' ≤ c ∧ c ≤ '9' then some (c.toNat - '0'.toNat) else none

/-- Reads a run of digit characters left to right, accumulating their value;
fails on any non-digit. -/
def digitsValAux (acc : ℕ) : List Char → Option ℕ
  | [] => some acc
  | c :: cs =>
    match charDigit c with
    | some d => digitsValAux (acc * 10 + d) cs
    | none => none

/-- Unsigned decimal literal: digits with an optional single point,
as accepted by Python `float` on plain decimal strings ("12", "12.5",
"12.", ".5"; rejects "", ".", "1.2.3", non-digits). -/
def parseUnsigned (cs : List Char) : Option ℚ :=
  let ip := cs.takeWhile (· ≠ '.')
  match cs.dropWhile (· ≠ '.') with
  | [] =>
    if ip.isEmpty then none
    else (digitsValAux 0 ip).map (fun n => (n : ℚ))
  | _ :: fp =>
    if ip.isEmpty && fp.isEmpty then none
    else
      match digitsValAux 0 ip, digitsValAux 0 fp with
      | some a, some b => some ((a : ℚ) + (b : ℚ) / (10 ^ fp.length : ℚ))
      | _, _ => none

/-- Model of Python `float(s)` on a plain decimal literal with optional sign. -/
def parseDecimal (s : String) : Option ℚ :=
  match s.toList with
  | '-' :: rest => (parseUnsigned rest).map (fun q => -q)
  | '+' :: rest => parseUnsigned rest
  | cs => parseUnsigned cs

/-- Model of Python `s.replace(c, '')`: removes every occurrence of `c`. -/
def stripChar (c : Char) (s : String) : String :=
  (s.toList.filter (· ≠ c)).asString

/-- Model of Python `pre in s` restricted to prefix position:
`s.startswith(pre)`. -/
def strStarts (pre s : String) : Bool :=
  pre.toList.isPrefixOf s.toList

/-- Whether `pat` occurs as a contiguous run somewhere in `cs`. -/
def charsHave (pat : List Char) : List Char → Bool
  | [] => pat.isEmpty
  | c :: cs => pat.isPrefixOf (c :: cs) || charsHave pat cs

/-- Model of Python `pat in s`: contiguous substring containment. -/
def strHas (pat s : String) : Bool :=
  charsHave pat.toList s.toList

/-- One raw quote record (a field-keyed dict).  Field codes are the upstream
API's: f12 symbol, f14 name, f2 price, f3 change percent, f6 turnover amount,
f8 turnover rate, f10 volume ratio, f20 float market cap.  `none` models an
absent key. -/
structure Stock where
  f12 : Option PyVal
  f14 : Option PyVal
  f2 : Option PyVal
  f3 : Option PyVal
  f6 : Option PyVal
  f8 : Option PyVal
  f10 : Option PyVal
  f20 : Option PyVal
deriving DecidableEq

/-- Model of `stock.get(key, '')` followed by use as a string: an absent key
yields `""`; a numeric value makes the subsequent string method raise
(modelled as `none`, the per-record exception path). -/
def getStr (v : Option PyVal) : Option String :=
  match v with
  | none => some ""
  | some (PyVal.pstr s) => some s
  | some (PyVal.pnum _) => none

/-- Model of `stock.get(key, 0)`: an absent key yields the number `0`. -/
def getNum0 (v : Option PyVal) : PyVal :=
  v.getD (PyVal.pnum 0)

/-- Model of Python `float(v)` on a string-or-number value. -/
def pyFloat (v : PyVal) : Option ℚ :=
  match v with
  | PyVal.pnum q => some q
  | PyVal.pstr s => parseDecimal s

/-- The `filter` configuration group, as consumed by `filter_stocks`
(lines 230-235): `max_price`, `min_limit_up_percent`, `exclude_st`,
`exclude_sci_tech_board`, and the symbol prefix list (source key
`stock_prefix`). -/
structure FilterConfig where
  max_price : ℚ
  min_limit_up_percent : ℚ
  exclude_st : Bool
  exclude_sci_tech_board : Bool
  prefix_list : List String
deriving DecidableEq

/-- Default filter configuration (lines 49-55). -/
def defaultFilterConfig : FilterConfig :=
  { max_price := 40, min_limit_up_percent := 19 / 2, exclude_st := true,
    exclude_sci_tech_board := true, prefix_list := ["0", "6"] }

/-- Lines 243-245: an empty `stock_prefix` list falls back to the default
`["0", "6"]`. -/
def effPrefixes (ps : List String) : List String :=
  if ps.isEmpty then ["0", "6"] else ps

/-- Stage 1 per-record predicate (lines 257-263): keep records whose symbol
starts with one of the configured prefixes; a record whose `f12` is numeric
raises and is skipped. -/
def stage1Keep (ps : List String) (s : Stock) : Bool :=
  match getStr s.f12 with
  | some code => ps.any (fun p => strStarts p code)
  | none => false

/-- Stage 2 per-record predicate (lines 269-275): keep records whose name
does not contain "ST"; a numeric `f14` raises and is skipped. -/
def stage2Keep (s : Stock) : Bool :=
  match getStr s.f14 with
  | some nm => !(strHas "ST" nm)
  | none => false

/-- Stage 3 per-record predicate (lines 281-287): keep records whose symbol
does not start with "688". -/
def stage3Keep (s : Stock) : Bool :=
  match getStr s.f12 with
  | some code => !(strStarts "688" code)
  | none => false

/-- Price parsing (lines 294-302): a string has commas stripped and is parsed;
a number is used as is. -/
def parsePriceRaw (v : PyVal) : Option ℚ :=
  match v with
  | PyVal.pstr s => parseDecimal (stripChar ',' s)
  | PyVal.pnum q => some q

/-- The price rescaling heuristic (lines 305-308): below 1 multiply by 1000,
above 1000 divide by 1000. -/
def rescalePrice (p : ℚ) : ℚ :=
  if p < 1 then p * 1000 else if p > 1000 then p / 1000 else p

/-- Normalized price of a record: `f2` (default 0) parsed then rescaled. -/
def normPrice (s : Stock) : Option ℚ :=
  (parsePriceRaw (getNum0 s.f2)).map rescalePrice

/-- Stage 4 per-record predicate (lines 291-312): keep records whose
normalized price is at most `max_price`; an unparsable price is skipped. -/
def stage4Keep (mp : ℚ) (s : Stock) : Bool :=
  match normPrice s with
  | some p => decide (p ≤ mp)
  | none => false

/-- Change-percent parsing (lines 324-332): a string has percent signs
stripped and is parsed; a number is used as is. -/
def parsePercentRaw (v : PyVal) : Option ℚ :=
  match v with
  | PyVal.pstr s => parseDecimal (stripChar '%' s)
  | PyVal.pnum q => some q

/-- Normalized change percent of a record: `f3` (default 0) parsed. -/
def normChangePercent (s : Stock) : Option ℚ :=
  parsePercentRaw (getNum0 s.f3)

/-- Stage 5 per-record predicate (lines 321-336): keep records whose
normalized change percent is at least `min_limit_up_percent`; an unparsable
value is skipped. -/
def stage5Keep (mn : ℚ) (s : Stock) : Bool :=
  match normChangePercent s with
  | some cp => decide (mn ≤ cp)
  | none => false

/-- Stage 1 over a list. -/
def prefixStage (ps : List String) (l : List Stock) : List Stock :=
  l.filter (stage1Keep ps)

/-- Stage 2 over a list; applied only when `exclude_st` (line 267). -/
def stStage (ex : Bool) (l : List Stock) : List Stock :=
  if ex then l.filter stage2Keep else l

/-- Stage 3 over a list; applied only when `exclude_sci_tech_board`
(line 279). -/
def sciStage (ex : Bool) (l : List Stock) : List Stock :=
  if ex then l.filter stage3Keep else l

/-- Stage 4 over a list. -/
def priceStage (mp : ℚ) (l : List Stock) : List Stock :=
  l.filter (stage4Keep mp)

/-- Stage 5 over a list. -/
def pctStage (mn : ℚ) (l : List Stock) : List Stock :=
  l.filter (stage5Keep mn)

/-- `ZTSelector.filter_stocks` (lines 218-347): the five exclusion stages in
source order. -/
def filter_stocks (cfg : FilterConfig) (l : List Stock) : List Stock :=
  pctStage cfg.min_limit_up_percent
    (priceStage cfg.max_price
      (sciStage cfg.exclude_sci_tech_board
        (stStage cfg.exclude_st
          (prefixStage (effPrefixes cfg.prefix_list) l))))

/-- The `score` configuration group (lines 56-63, read at lines 355-361). -/
structure ScoreConfig where
  base_score : ℚ
  volume_ratio_weight : ℚ
  turnover_rate_weight : ℚ
  continuous_limit_up_weight : ℚ
  amount_weight : ℚ
  amount_max_score : ℚ
deriving DecidableEq

/-- Default score weights (lines 56-63). -/
def defaultScoreConfig : ScoreConfig :=
  { base_score := 50, volume_ratio_weight := 5, turnover_rate_weight := 2,
    continuous_limit_up_weight := 10, amount_weight := 3, amount_max_score := 15 }

/-- `ZTSelector.calculate_continuous_limit_up` (lines 213-216): a stub that
ignores the symbol and always reports 1 consecutive limit-up day. -/
def calculate_continuous_limit_up (_code : Option PyVal) : ℕ := 1

/-- The numeric inputs read by `score_stocks` for one record (lines 368-372):
change percent, volume ratio, turnover rate, turnover amount and float market
cap, the last two divided by 10^8 (converted to hundred-millions).  These
`float(...)` calls are not guarded per record: any failure raises out of the
stage, which `none` models. -/
def scoreInputs (s : Stock) : Option (ℚ × ℚ × ℚ × ℚ × ℚ) := do
  let cp ← pyFloat (getNum0 s.f3)
  let vr ← pyFloat (getNum0 s.f10)
  let tr ← pyFloat (getNum0 s.f8)
  let a6 ← pyFloat (getNum0 s.f6)
  let c20 ← pyFloat (getNum0 s.f20)
  return (cp, vr, tr, a6 / 100000000, c20 / 100000000)

/-- The score accumulation of lines 365-396, in source order: base score,
volume-ratio and turnover-rate terms, consecutive-limit-up term, capped
turnover-amount term, and the float-market-cap bonus. -/
def computeScore (cfg : ScoreConfig) (vr tr amt mcap : ℚ) (cl : ℕ) : ℚ :=
  let s1 := 0 + cfg.base_score
  let s2 := s1 + vr * cfg.volume_ratio_weight
  let s3 := s2 + tr * cfg.turnover_rate_weight
  let s4 := s3 + (cl : ℚ) * cfg.continuous_limit_up_weight
  let s5 := s4 + min (amt * cfg.amount_weight) cfg.amount_max_score
  if 10 ≤ mcap ∧ mcap ≤ 50 then s5 + 10
  else if 50 < mcap ∧ mcap ≤ 100 then s5 + 5
  else s5

/-- `n` rendered with exactly two digits (for the fractional part of
two-decimal formatting). -/
def pad2 (n : ℕ) : String :=
  if n < 10 then "0" ++ toString n else toString n

/-- Model of Python `f"{q:.2f}"`: the value rounded to two decimal places and
rendered with exactly two fractional digits.  (CPython rounds the underlying
binary double half-to-even; on the exact decimal values this development
evaluates, the two agree.) -/
def fmt2 (q : ℚ) : String :=
  let c : ℤ := Int.floor (q * 100 + 1 / 2)
  let a := c.natAbs
  (if c < 0 then "-" else "") ++ toString (a / 100) ++ "." ++ pad2 (a % 100)

/-- The rationale construction of lines 399-412: a list built by conditional
appends in source order, then joined with "、", with the literal fallback
when empty. -/
def buildReason (vr tr : ℚ) (cl : ℕ) (mcap amt : ℚ) : String :=
  let r1 : List String := if 3 / 2 < vr then ["量比高(" ++ fmt2 vr ++ ")"] else []
  let r2 := if 3 < tr then r1 ++ ["换手率高(" ++ fmt2 tr ++ "%)"] else r1
  let r3 := if 1 < cl then r2 ++ ["连续涨停" ++ toString cl ++ "天"] else r2
  let r4 := if 10 ≤ mcap ∧ mcap ≤ 50 then r3 ++ ["流通市值适中(" ++ fmt2 mcap ++ "亿)"] else r3
  let r5 := if 5 < amt then r4 ++ ["成交活跃(" ++ fmt2 amt ++ "亿)"] else r4
  if r5.isEmpty then "综合指标评分" else String.intercalate "、" r5

/-- A scored candidate: the unmodified raw record plus the fields the scoring
loop attaches (`score`, `reason`, `continuous_limit_up`, lines 411-413). -/
structure Scored where
  base : Stock
  score : ℚ
  reason : String
  continuous_limit_up : ℕ
deriving DecidableEq

/-- Scoring of one record (loop body, lines 364-415): read the numeric
fields, compute the score and rationale, attach them.  `none` models the
uncaught per-record exception. -/
def annotate (cfg : ScoreConfig) (s : Stock) : Option Scored := do
  let (_cp, vr, tr, amt, mcap) ← scoreInputs s
  let cl := calculate_continuous_limit_up s.f12
  return { base := s, score := computeScore cfg vr tr amt mcap cl,
           reason := buildReason vr tr cl mcap amt, continuous_limit_up := cl }

/-- Effectful map over a list in the `Option` monad: the first failure aborts
the whole traversal, as an uncaught exception aborts the Python loop. -/
def optMapM (f : α → Option β) : List α → Option (List β)
  | [] => some []
  | x :: xs => do
    let y ← f x
    let ys ← optMapM f xs
    return y :: ys

/-- Insertion step of a stable descending sort on `score`: the new element
goes in front of the first element it is greater than or equal to, so it
stays behind every earlier-input element of equal score. -/
def insertDesc (x : Scored) : List Scored → List Scored
  | [] => [x]
  | y :: ys => if y.score ≤ x.score then x :: y :: ys else y :: insertDesc x ys

/-- Stable descending sort by `score`, modelling line 418
(`scored_stocks.sort(key=lambda x: x['score'], reverse=True)`; CPython's sort
is stable, and a stable descending sort is unique, so any stable model
agrees with it). -/
def sortDesc : List Scored → List Scored
  | [] => []
  | x :: xs => insertDesc x (sortDesc xs)

/-- `ZTSelector.score_stocks` (lines 349-419): annotate every record, then
sort descending by score.  An exception while reading any record's fields
aborts the whole stage (there is no per-record handler in this loop). -/
def score_stocks (cfg : ScoreConfig) (l : List Stock) : Option (List Scored) :=
  (optMapM (annotate cfg) l).map sortDesc

/-- Truncation to the top N, modelling `recommended_stocks[:top_count]`
(line 456) applied to the sorted output of `score_stocks` (line 418). -/
def rank (l : List Scored) (n : ℕ) : List Scored :=
  (sortDesc l).take n

/-- Descending order on scores, the postcondition of line 418's sort. -/
def ScoreSorted (l : List Scored) : Prop :=
  List.Pairwise (fun a b => b.score ≤ a.score) l

/-- A JSON-decoded configuration value, as loaded by `load_config`.  Python's
`bool` is a subclass of `int`, so `isinstance(x, (int, float))` and
`isinstance(x, int)` both accept booleans; the predicates below reproduce
that.  List payloads are modelled by their string elements — the code only
ever inspects listness and length. -/
inductive JVal where
  | jint (n : ℤ)
  | jfloat (q : ℚ)
  | jbool (b : Bool)
  | jstr (s : String)
  | jlist (elems : List String)
  | jnull
deriving DecidableEq

/-- Model of `isinstance(v, (int, float))` (booleans included, as in Python). -/
def jIsNumber : JVal → Bool
  | JVal.jint _ => true
  | JVal.jfloat _ => true
  | JVal.jbool _ => true
  | _ => false

/-- Model of `isinstance(v, bool)`. -/
def jIsBool : JVal → Bool
  | JVal.jbool _ => true
  | _ => false

/-- Model of `isinstance(v, int)` (booleans included, as in Python). -/
def jIsInt : JVal → Bool
  | JVal.jint _ => true
  | JVal.jbool _ => true
  | _ => false

/-- Numeric value of a configuration entry; only consulted after an
`isinstance` check succeeds, mirroring the code's short-circuit `or`. -/
def jToQ : JVal → ℚ
  | JVal.jint n => (n : ℚ)
  | JVal.jfloat q => q
  | JVal.jbool b => if b then 1 else 0
  | _ => 0

/-- A loaded configuration: the fourteen validated entries of the three
groups (key `stock_prefix` is field `prefix_list`). -/
structure RawConfig where
  max_price : JVal
  min_limit_up_percent : JVal
  exclude_st : JVal
  exclude_sci_tech_board : JVal
  prefix_list : JVal
  base_score : JVal
  volume_ratio_weight : JVal
  turnover_rate_weight : JVal
  continuous_limit_up_weight : JVal
  amount_weight : JVal
  amount_max_score : JVal
  top_count : JVal
  output_dir : JVal
  auto_open_excel : JVal
deriving DecidableEq

/-- `ZTSelector._validate_config` (lines 126-180).  The filter and output
groups replace each invalid entry with a literal default.  The score loop
(lines 159-162), however, executes `score_config[key] = config["score"][key]`
where `score_config` *is* `config["score"]`: the branch logs "using the
default" but assigns each entry to itself, so all six score entries pass
through unchanged whatever their value. -/
def validate_config (c : RawConfig) : RawConfig :=
  { c with
    max_price :=
      if jIsNumber c.max_price = false ∨ jToQ c.max_price ≤ 0 then JVal.jint 40
      else c.max_price,
    min_limit_up_percent :=
      if jIsNumber c.min_limit_up_percent = false ∨
          ¬(0 ≤ jToQ c.min_limit_up_percent ∧ jToQ c.min_limit_up_percent ≤ 20) then
        JVal.jfloat (19 / 2)
      else c.min_limit_up_percent,
    exclude_st :=
      if jIsBool c.exclude_st = false then JVal.jbool true else c.exclude_st,
    exclude_sci_tech_board :=
      if jIsBool c.exclude_sci_tech_board = false then JVal.jbool true
      else c.exclude_sci_tech_board,
    prefix_list :=
      match c.prefix_list with
      | JVal.jlist es => if es.isEmpty then JVal.jlist ["0", "6"] else JVal.jlist es
      | _ => JVal.jlist ["0", "6"],
    base_score := c.base_score,
    volume_ratio_weight := c.volume_ratio_weight,
    turnover_rate_weight := c.turnover_rate_weight,
    continuous_limit_up_weight := c.continuous_limit_up_weight,
    amount_weight := c.amount_weight,
    amount_max_score := c.amount_max_score,
    top_count :=
      if jIsInt c.top_count = false ∨ jToQ c.top_count ≤ 0 then JVal.jint 10
      else c.top_count,
    output_dir :=
      match c.output_dir with
      | JVal.jstr s => if s.isEmpty then JVal.jstr "output" else JVal.jstr s
      | _ => JVal.jstr "output",
    auto_open_excel :=
      if jIsBool c.auto_open_excel = false then JVal.jbool true
      else c.auto_open_excel }

/-- The documented validity predicate for one score weight: a non-negative
number. -/
def scoreWeightValid (v : JVal) : Bool :=
  jIsNumber v && decide (0 ≤ jToQ v)

/-- A loaded configuration that is the default everywhere except that
`score.volume_ratio_weight` is -5 (invalid: negative). -/
def c4bad : RawConfig :=
  { max_price := JVal.jint 40, min_limit_up_percent := JVal.jfloat (19 / 2),
    exclude_st := JVal.jbool true, exclude_sci_tech_board := JVal.jbool true,
    prefix_list := JVal.jlist ["0", "6"], base_score := JVal.jint 50,
    volume_ratio_weight := JVal.jfloat (-5), turnover_rate_weight := JVal.jint 2,
    continuous_limit_up_weight := JVal.jint 10, amount_weight := JVal.jint 3,
    amount_max_score := JVal.jint 15, top_count := JVal.jint 10,
    output_dir := JVal.jstr "output", auto_open_excel := JVal.jbool true }

/-- A well-formed record with neutral numeric fields: every score input is 0,
price 10, change percent 10. -/
def zeroStock : Stock :=
  { f12 := some (PyVal.pstr "000001"), f14 := some (PyVal.pstr "平安银行"),
    f2 := some (PyVal.pnum 10), f3 := some (PyVal.pnum 10),
    f6 := some (PyVal.pnum 0), f8 := some (PyVal.pnum 0),
    f10 := some (PyVal.pnum 0), f20 := some (PyVal.pnum 0) }

/-- The specification's scoring scenario: volume ratio 2, turnover rate 4,
change percent 10, turnover amount 6 hundred-millions, float market cap 30
hundred-millions. -/
def demo103 : Stock :=
  { f12 := some (PyVal.pstr "000002"), f14 := some (PyVal.pstr "万科A"),
    f2 := some (PyVal.pnum 12), f3 := some (PyVal.pnum 10),
    f6 := some (PyVal.pnum 600000000), f8 := some (PyVal.pnum 4),
    f10 := some (PyVal.pnum 2), f20 := some (PyVal.pnum 3000000000) }

/-- A record whose change percent is the string "10.5%": it passes filter
stage 5 (which strips the percent sign) but `float("10.5%")` in the scoring
loop raises. -/
def pctStrStock : Stock :=
  { zeroStock with f12 := some (PyVal.pstr "000003"),
                   f3 := some (PyVal.pstr "10.5%") }

/-- A record with an unparsable price and change percent. -/
def garbageStock : Stock :=
  { zeroStock with f12 := some (PyVal.pstr "000004"),
                   f2 := some (PyVal.pstr "abc"),
                   f3 := some (PyVal.pstr "abc") }

/-- Modelled from the spec: the price rescaling rule as the specification
words it — "if the parsed magnitude is below 1, multiply by 1000; if above
1000, divide by 1000" — reading "magnitude" as the absolute value.  Declared
only for comparison against the source's `rescalePrice`, which compares the
signed value. -/
def specRescalePrice (p : ℚ) : ℚ :=
  if |p| < 1 then p * 1000 else if |p| > 1000 then p / 1000 else p

/-- A record carrying no price, change-percent or scoring fields at all. -/
def emptyStock : Stock :=
  { f12 := some (PyVal.pstr "000005"), f14 := some (PyVal.pstr "空字段"),
    f2 := none, f3 := none, f6 := none, f8 := none, f10 := none, f20 := none }

/-- The scored form of `zeroStock` under default weights: 50 base + 10 for
the stubbed one limit-up day, no rationale clause triggered. -/
def zeroScored : Scored :=
  { base := zeroStock, score := 60, reason := "综合指标评分", continuous_limit_up := 1 }

/-- Three scored candidates with a tie on score 1 (first two) below a score
2, exercising ranking. -/
def c6demo : List Scored :=
  [{ base := zeroStock, score := 1, reason := "a", continuous_limit_up := 1 },
   { base := demo103, score := 1, reason := "b", continuous_limit_up := 1 },
   { base := pctStrStock, score := 2, reason := "c", continuous_limit_up := 1 }]

/-- `zeroStock` with volume ratio 1. -/
def c9s1 : Stock := { zeroStock with f10 := some (PyVal.pnum 1) }

/-- `zeroStock` with volume ratio 2 (identical to `c9s1` otherwise). -/
def c9s2 : Stock := { zeroStock with f10 := some (PyVal.pnum 2) }

/-- The scored form of `c9s1`: 50 + 1*5 + 10. -/
def c9x1 : Scored :=
  { base := c9s1, score := 65, reason := "综合指标评分", continuous_limit_up := 1 }

/-- The scored form of `c9s2`: 50 + 2*5 + 10, volume-ratio clause triggered. -/
def c9x2 : Scored :=
  { base := c9s2, score := 70, reason := "量比高(2.00)", continuous_limit_up := 1 }

theorem insertDesc_perm (x : Scored) (l : List Scored) :
    List.Perm (insertDesc x l) (x :: l) := by
  induction l with
  | nil => simp [insertDesc]
  | cons y ys ih =>
    by_cases h : y.score ≤ x.score
    · simp [insertDesc, h]
    · simp only [insertDesc, if_neg h]
      exact (ih.cons y).trans (List.Perm.swap x y ys)

theorem sortDesc_perm (l : List Scored) : List.Perm (sortDesc l) l := by
  induction l with
  | nil => rfl
  | cons x xs ih => exact (insertDesc_perm x (sortDesc xs)).trans (ih.cons x)

theorem sortDesc_length (l : List Scored) : (sortDesc l).length = l.length :=
  (sortDesc_perm l).length_eq

theorem mem_insertDesc {x z : Scored} {l : List Scored} (h : z ∈ insertDesc x l) :
    z = x ∨ z ∈ l := by
  have := (insertDesc_perm x l).mem_iff.mp h
  simpa using this

theorem insertDesc_sorted {x : Scored} {l : List Scored} (h : ScoreSorted l) :
    ScoreSorted (insertDesc x l) := by
  induction l with
  | nil => simp [insertDesc, ScoreSorted]
  | cons y ys ih =>
    rw [ScoreSorted, List.pairwise_cons] at h
    obtain ⟨hy, hys⟩ := h
    by_cases hxy : y.score ≤ x.score
    · rw [ScoreSorted]
      simp only [insertDesc, if_pos hxy, List.pairwise_cons]
      refine ⟨?_, hy, hys⟩
      intro z hz
      rcases List.mem_cons.mp hz with rfl | hz'
      · exact hxy
      · exact (hy z hz').trans hxy
    · rw [ScoreSorted]
      simp only [insertDesc, if_neg hxy, List.pairwise_cons]
      refine ⟨?_, ih hys⟩
      intro z hz
      rcases mem_insertDesc hz with rfl | hz'
      · exact le_of_lt (lt_of_not_le hxy)
      · exact hy z hz'

theorem sortDesc_sorted (l : List Scored) : ScoreSorted (sortDesc l) := by
  induction l with
  | nil => simp [sortDesc, ScoreSorted]
  | cons x xs ih => exact insertDesc_sorted ih

theorem insertDesc_filter (x : Scored) (l : List Scored) (s : ℚ) :
    (insertDesc x l).filter (fun c => decide (c.score = s)) =
      if x.score = s then x :: l.filter (fun c => decide (c.score = s))
      else l.filter (fun c => decide (c.score = s)) := by
  induction l with
  | nil => by_cases hx : x.score = s <;> simp [insertDesc, List.filter, hx]
  | cons y ys ih =>
    by_cases hxy : y.score ≤ x.score
    · simp only [insertDesc, if_pos hxy]
      by_cases hx : x.score = s <;> simp [List.filter_cons, hx]
    · simp only [insertDesc, if_neg hxy]
      by_cases hy : y.score = s
      · have hx : ¬x.score = s := by
          have hlt : x.score < y.score := lt_of_not_le hxy
          rw [hy] at hlt
          exact ne_of_lt hlt
        simp [List.filter_cons, hy, hx, ih]
      · simp [List.filter_cons, hy, ih]

theorem sortDesc_stable (l : List Scored) (s : ℚ) :
    (sortDesc l).filter (fun c => decide (c.score = s)) =
      l.filter (fun c => decide (c.score = s)) := by
  induction l with
  | nil => rfl
  | cons x xs ih =>
    rw [sortDesc, insertDesc_filter]
    by_cases hx : x.score = s <;> simp [List.filter_cons, hx, ih]

theorem optMapM_eq_none {α β : Type} {f : α → Option β} {l : List α} {x : α}
    (hx : x ∈ l) (hf : f x = none) : optMapM f l = none := by
  induction l with
  | nil => cases hx
  | cons a as ih =>
    rcases List.mem_cons.mp hx with rfl | hx'
    · simp [optMapM, hf]
    · cases hfa : f a with
      | none => simp [optMapM, hfa]
      | some b => simp [optMapM, hfa, ih hx']

theorem optMapM_mem {α β : Type} {f : α → Option β} :
    ∀ {l : List α} {ys : List β}, optMapM f l = some ys →
      ∀ y ∈ ys, ∃ x ∈ l, f x = some y := by
  intro l
  induction l with
  | nil =>
    intro ys h y hy
    simp [optMapM] at h
    subst h
    cases hy
  | cons a as ih =>
    intro ys h y hy
    cases hfa : f a with
    | none => rw [optMapM] at h; simp [hfa] at h
    | some b =>
      cases hrest : optMapM f as with
      | none => rw [optMapM] at h; simp [hfa, hrest] at h
      | some bs =>
        rw [optMapM] at h
        simp [hfa, hrest] at h
        subst h
        rcases List.mem_cons.mp hy with rfl | hy'
        · exact ⟨a, List.mem_cons_self a as, hfa⟩
        · obtain ⟨x, hxl, hfx⟩ := ih hrest y hy'
          exact ⟨x, List.mem_cons_of_mem a hxl, hfx⟩

theorem mem_stStage {ex : Bool} {l : List Stock} {s : Stock} (h : s ∈ stStage ex l) :
    s ∈ l ∧ (ex = true → stage2Keep s = true) := by
  cases ex
  · exact ⟨by simpa [stStage] using h, by simp⟩
  · obtain ⟨h1, h2⟩ := List.mem_filter.mp (by simpa [stStage] using h)
    exact ⟨h1, fun _ => h2⟩

theorem mem_sciStage {ex : Bool} {l : List Stock} {s : Stock} (h : s ∈ sciStage ex l) :
    s ∈ l ∧ (ex = true → stage3Keep s = true) := by
  cases ex
  · exact ⟨by simpa [sciStage] using h, by simp⟩
  · obtain ⟨h1, h2⟩ := List.mem_filter.mp (by simpa [sciStage] using h)
    exact ⟨h1, fun _ => h2⟩

theorem mem_filter_stocks {cfg : FilterConfig} {l : List Stock} {s : Stock}
    (hs : s ∈ filter_stocks cfg l) :
    s ∈ l ∧ stage1Keep (effPrefixes cfg.prefix_list) s = true ∧
      (cfg.exclude_st = true → stage2Keep s = true) ∧
      (cfg.exclude_sci_tech_board = true → stage3Keep s = true) ∧
      stage4Keep cfg.max_price s = true ∧
      stage5Keep cfg.min_limit_up_percent s = true := by
  unfold filter_stocks pctStage priceStage prefixStage at hs
  obtain ⟨hs, hk5⟩ := List.mem_filter.mp hs
  obtain ⟨hs, hk4⟩ := List.mem_filter.mp hs
  obtain ⟨hs, hk3⟩ := mem_sciStage hs
  obtain ⟨hs, hk2⟩ := mem_stStage hs
  obtain ⟨hs, hk1⟩ := List.mem_filter.mp hs
  exact ⟨hs, hk1, hk2, hk3, hk4, hk5⟩

theorem stage1Keep_spec {ps : List String} {s : Stock} (h : stage1Keep ps s = true) :
    ∃ code, getStr s.f12 = some code ∧ ∃ p ∈ ps, strStarts p code = true := by
  cases hg : getStr s.f12 with
  | none => simp [stage1Keep, hg] at h
  | some code =>
    simp only [stage1Keep, hg] at h
    exact ⟨code, rfl, List.any_eq_true.mp h⟩

theorem stage2Keep_spec {s : Stock} (h : stage2Keep s = true) :
    ∃ nm, getStr s.f14 = some nm ∧ strHas "ST" nm = false := by
  cases hg : getStr s.f14 with
  | none => simp [stage2Keep, hg] at h
  | some nm =>
    simp only [stage2Keep, hg, Bool.not_eq_true'] at h
    exact ⟨nm, rfl, h⟩

theorem stage4Keep_spec {mp : ℚ} {s : Stock} (h : stage4Keep mp s = true) :
    ∃ q, normPrice s = some q ∧ q ≤ mp := by
  cases hn : normPrice s with
  | none => simp [stage4Keep, hn] at h
  | some q =>
    simp only [stage4Keep, hn, decide_eq_true_eq] at h
    exact ⟨q, rfl, h⟩

theorem stage5Keep_spec {mn : ℚ} {s : Stock} (h : stage5Keep mn s = true) :
    ∃ cp, normChangePercent s = some cp ∧ mn ≤ cp := by
  cases hn : normChangePercent s with
  | none => simp [stage5Keep, hn] at h
  | some cp =>
    simp only [stage5Keep, hn, decide_eq_true_eq] at h
    exact ⟨cp, rfl, h⟩

theorem filter_stocks_append (cfg : FilterConfig) (a b : List Stock) :
    filter_stocks cfg (a ++ b) = filter_stocks cfg a ++ filter_stocks cfg b := by
  unfold filter_stocks pctStage priceStage sciStage stStage prefixStage
  cases cfg.exclude_st <;> cases cfg.exclude_sci_tech_board <;>
    simp [List.filter_append]

theorem filter_stocks_single_dead {cfg : FilterConfig} {bad : Stock}
    (hdead : stage4Keep cfg.max_price bad = false ∨
      stage5Keep cfg.min_limit_up_percent bad = false) :
    filter_stocks cfg [bad] = [] := by
  rcases hres : filter_stocks cfg [bad] with _ | ⟨s, rest⟩
  · rfl
  · exfalso
    have hmem : s ∈ filter_stocks cfg [bad] := by
      rw [hres]; exact List.mem_cons_self _ _
    obtain ⟨hin, _, _, _, h4, h5⟩ := mem_filter_stocks hmem
    have hsb : s = bad := by simpa using hin
    subst hsb
    rcases hdead with h | h
    · rw [h] at h4; exact absurd h4 (by decide)
    · rw [h] at h5; exact absurd h5 (by decide)

theorem annotate_eq {cfg : ScoreConfig} {s : Stock} {cp vr tr amt mcap : ℚ}
    (h : scoreInputs s = some (cp, vr, tr, amt, mcap)) :
    annotate cfg s = some
      { base := s,
        score := computeScore cfg vr tr amt mcap (calculate_continuous_limit_up s.f12),
        reason := buildReason vr tr (calculate_continuous_limit_up s.f12) mcap amt,
        continuous_limit_up := calculate_continuous_limit_up s.f12 } := by
  simp [annotate, h]

theorem annotate_none {cfg : ScoreConfig} {s : Stock} (h : scoreInputs s = none) :
    annotate cfg s = none := by
  simp [annotate, h]

theorem annotate_base {cfg : ScoreConfig} {s : Stock} {x : Scored}
    (h : annotate cfg s = some x) : x.base = s := by
  cases hsi : scoreInputs s with
  | none => rw [annotate_none hsi] at h; cases h
  | some t =>
    obtain ⟨cp, vr, tr, amt, mcap⟩ := t
    rw [annotate_eq hsi] at h
    obtain rfl := Option.some.inj h
    rfl

/-- C1: for every configuration with a non-empty prefix list (what
`_validate_config` guarantees) and every input list, each record in the
output of `filter_stocks` has a symbol starting with one of the configured
prefixes, a name free of "ST" whenever `exclude_st` is on, a normalized
price at most `max_price`, and a normalized change percent at least
`min_limit_up_percent`; and when `exclude_st` is off, the ST stage passes
every record through unchanged, so ST records stay eligible for the later
stages. -/
theorem C1_filter_output_sound (cfg : FilterConfig) (l : List Stock)
    (hps : cfg.prefix_list ≠ []) :
    (∀ s ∈ filter_stocks cfg l,
      (∃ code, getStr s.f12 = some code ∧ ∃ p ∈ cfg.prefix_list, strStarts p code = true) ∧
      (cfg.exclude_st = true → ∃ nm, getStr s.f14 = some nm ∧ strHas "ST" nm = false) ∧
      (∃ q, normPrice s = some q ∧ q ≤ cfg.max_price) ∧
      (∃ cp, normChangePercent s = some cp ∧ cfg.min_limit_up_percent ≤ cp)) ∧
    (cfg.exclude_st = false → ∀ l' : List Stock, stStage cfg.exclude_st l' = l') := by
  constructor
  · intro s hs
    obtain ⟨_, hk1, hk2, _, hk4, hk5⟩ := mem_filter_stocks hs
    have heff : effPrefixes cfg.prefix_list = cfg.prefix_list := by
      rcases hpp : cfg.prefix_list with _ | ⟨a, as⟩
      · exact absurd hpp hps
      · simp [effPrefixes]
    rw [heff] at hk1
    exact ⟨stage1Keep_spec hk1, fun hst => stage2Keep_spec (hk2 hst),
      stage4Keep_spec hk4, stage5Keep_spec hk5⟩
  · intro hst l'
    simp [stStage, hst]

/-- Witness for C1 at the default configuration on a two-record list. -/
theorem C1_witness :
    defaultFilterConfig.prefix_list ≠ [] ∧
    ((∀ s ∈ filter_stocks defaultFilterConfig [zeroStock, demo103],
      (∃ code, getStr s.f12 = some code ∧
        ∃ p ∈ defaultFilterConfig.prefix_list, strStarts p code = true) ∧
      (defaultFilterConfig.exclude_st = true →
        ∃ nm, getStr s.f14 = some nm ∧ strHas "ST" nm = false) ∧
      (∃ q, normPrice s = some q ∧ q ≤ defaultFilterConfig.max_price) ∧
      (∃ cp, normChangePercent s = some cp ∧
        defaultFilterConfig.min_limit_up_percent ≤ cp)) ∧
    (defaultFilterConfig.exclude_st = false →
      ∀ l' : List Stock, stStage defaultFilterConfig.exclude_st l' = l')) :=
  ⟨by decide, C1_filter_output_sound defaultFilterConfig [zeroStock, demo103] (by decide)⟩

/-- C2: whenever a candidate's fields parse, its computed score equals
base_score + volume_ratio * volume_ratio_weight + turnover_rate *
turnover_rate_weight + consecutive_limit_up_days *
continuous_limit_up_weight + min(turnover_amount_in_hundred_millions *
amount_weight, amount_max_score) + market_cap_bonus, with the bonus 10 on a
float cap (in hundred-millions) in [10, 50], 5 on (50, 100], 0 otherwise;
and the specification's scenario candidate scores exactly 103 under default
weights. -/
theorem C2_score_formula :
    (∀ (cfg : ScoreConfig) (s : Stock) (cp vr tr amt mcap : ℚ),
      scoreInputs s = some (cp, vr, tr, amt, mcap) →
      (annotate cfg s).map Scored.score = some
        (cfg.base_score + vr * cfg.volume_ratio_weight + tr * cfg.turnover_rate_weight +
          (calculate_continuous_limit_up s.f12 : ℚ) * cfg.continuous_limit_up_weight +
          min (amt * cfg.amount_weight) cfg.amount_max_score +
          (if 10 ≤ mcap ∧ mcap ≤ 50 then 10
            else if 50 < mcap ∧ mcap ≤ 100 then 5 else 0))) ∧
    (annotate defaultScoreConfig demo103).map Scored.score = some 103 := by
  constructor
  · intro cfg s cp vr tr amt mcap h
    rw [annotate_eq h]
    simp only [Option.map_some']
    congr 1
    simp only [computeScore]
    split_ifs <;> ring
  · norm_num [annotate, scoreInputs, computeScore, calculate_continuous_limit_up,
      demo103, defaultScoreConfig, getNum0, pyFloat, min_def]

/-- Witness for C2: the scenario record's parsed inputs and its score by the
formula. -/
theorem C2_witness :
    scoreInputs demo103 = some (10, 2, 4, 6, 30) ∧
    (annotate defaultScoreConfig demo103).map Scored.score = some
      (defaultScoreConfig.base_score + 2 * defaultScoreConfig.volume_ratio_weight +
        4 * defaultScoreConfig.turnover_rate_weight +
        (calculate_continuous_limit_up demo103.f12 : ℚ) *
          defaultScoreConfig.continuous_limit_up_weight +
        min (6 * defaultScoreConfig.amount_weight) defaultScoreConfig.amount_max_score +
        (if (10 : ℚ) ≤ 30 ∧ (30 : ℚ) ≤ 50 then 10
          else if (50 : ℚ) < 30 ∧ (30 : ℚ) ≤ 100 then 5 else 0)) :=
  ⟨by norm_num [scoreInputs, demo103, getNum0, pyFloat],
    C2_score_formula.1 defaultScoreConfig demo103 10 2 4 6 30
      (by norm_num [scoreInputs, demo103, getNum0, pyFloat])⟩

/-- C3 (amended): in the filter pipeline an unparsable price or change
percent on one record only removes that record — the output over the
remaining records is unchanged; in the scoring stage, by contrast, any
record whose fields fail to read aborts the whole stage (the `float` calls
of lines 364-372 have no per-record handler), so no record is scored. -/
theorem C3_filter_isolates_scoring_aborts (cfg : FilterConfig)
    (l1 l2 : List Stock) (bad : Stock) :
    (normPrice bad = none →
      filter_stocks cfg (l1 ++ bad :: l2) = filter_stocks cfg (l1 ++ l2)) ∧
    (normChangePercent bad = none →
      filter_stocks cfg (l1 ++ bad :: l2) = filter_stocks cfg (l1 ++ l2)) ∧
    (∀ (scfg : ScoreConfig) (l : List Stock),
      bad ∈ l → annotate scfg bad = none → score_stocks scfg l = none) := by
  have key : stage4Keep cfg.max_price bad = false ∨
      stage5Keep cfg.min_limit_up_percent bad = false →
      filter_stocks cfg (l1 ++ bad :: l2) = filter_stocks cfg (l1 ++ l2) := by
    intro hdead
    have hsplit : l1 ++ bad :: l2 = l1 ++ [bad] ++ l2 := by simp
    rw [hsplit, filter_stocks_append, filter_stocks_append, filter_stocks_append,
      filter_stocks_single_dead hdead]
    simp
  refine ⟨fun h => key (Or.inl ?_), fun h => key (Or.inr ?_), ?_⟩
  · simp [stage4Keep, h]
  · simp [stage5Keep, h]
  · intro scfg l hmem hann
    unfold score_stocks
    rw [optMapM_eq_none hmem hann]
    rfl

/-- Witness for C3 (amended): a record with unparsable price and percent is
dropped from the filter output without affecting its neighbours, and a
one-record scoring stage containing it yields nothing at all. -/
theorem C3_witness :
    filter_stocks defaultFilterConfig ([zeroStock] ++ garbageStock :: [demo103]) =
      filter_stocks defaultFilterConfig ([zeroStock] ++ [demo103]) ∧
    score_stocks defaultScoreConfig [garbageStock] = none :=
  ⟨(C3_filter_isolates_scoring_aborts defaultFilterConfig [zeroStock] [demo103]
      garbageStock).1 (by decide),
    (C3_filter_isolates_scoring_aborts defaultFilterConfig [zeroStock] [demo103]
      garbageStock).2.2 defaultScoreConfig [garbageStock]
      (List.mem_singleton.mpr rfl) (by decide)⟩

/-- C3 counterexample: the record whose `f3` is the string "10.5%" (a value
the filter's own percent stage accepts) makes the scoring stage return
nothing — the well-formed record alongside it is not processed either — so
a per-record field error does abort the scoring stage, contrary to the
claim. -/
theorem C3_counterexample :
    score_stocks defaultScoreConfig [zeroStock, pctStrStock] = none ∧
    (score_stocks defaultScoreConfig [zeroStock]).isSome = true ∧
    stage5Keep defaultFilterConfig.min_limit_up_percent pctStrStock = true := by
  refine ⟨by decide, by decide, ?_⟩
  have hcp : normChangePercent pctStrStock =
      some (((10 : ℕ) : ℚ) + ((5 : ℕ) : ℚ) / 10 ^ 1) := rfl
  simp only [stage5Keep, hcp, defaultFilterConfig, decide_eq_true_eq]
  norm_num

/-- C4: the claim fails on the score group.  Validating a configuration
whose `volume_ratio_weight` is -5 (invalid: negative) leaves the whole
configuration unchanged — the self-assignment of lines 159-162 never
installs the documented default 5 — so the configuration actually used
still carries an invalid score weight. -/
theorem C4_score_weight_not_defaulted :
    validate_config c4bad = c4bad ∧
    (validate_config c4bad).volume_ratio_weight = JVal.jfloat (-5) ∧
    scoreWeightValid (validate_config c4bad).volume_ratio_weight = false ∧
    (validate_config c4bad).volume_ratio_weight ≠ JVal.jfloat 5 := by
  refine ⟨?_, by decide, ?_, by decide⟩
  · norm_num [validate_config, c4bad, jIsNumber, jIsBool, jIsInt, jToQ]
  · norm_num [validate_config, c4bad, jIsNumber, jIsBool, jIsInt, jToQ, scoreWeightValid]

/-- C5 counterexample: the claim's rescaling rule speaks of the parsed
magnitude, but the code compares the signed value (line 305): at the raw
price -5 the code multiplies by 1000 and yields -5000, while the magnitude
reading leaves -5 unchanged. -/
theorem C5_counterexample :
    rescalePrice (-5) = -5000 ∧ specRescalePrice (-5) = -5 ∧
      rescalePrice (-5) ≠ specRescalePrice (-5) := by
  refine ⟨?_, ?_, ?_⟩
  · norm_num [rescalePrice]
  · norm_num [specRescalePrice, abs]
  · norm_num [rescalePrice, specRescalePrice, abs]

/-- C5 (amended): price normalization strips thousands separators from a
string before parsing, and rescales the parsed value: below 1 it is
multiplied by 1000, above 1000 it is divided by 1000, otherwise unchanged;
in particular raw "1234" normalizes to 1.234 and raw 0.05 to 50. -/
theorem C5_price_normalization :
    (∀ (v : PyVal) (q : ℚ), parsePriceRaw v = some q →
      (parsePriceRaw v).map rescalePrice =
        some (if q < 1 then q * 1000 else if q > 1000 then q / 1000 else q)) ∧
    (∀ s : String, parsePriceRaw (PyVal.pstr s) = parseDecimal (stripChar ',' s)) ∧
    normPrice { zeroStock with f2 := some (PyVal.pstr "1234") } = some (1234 / 1000) ∧
    normPrice { zeroStock with f2 := some (PyVal.pnum (1 / 20)) } = some 50 := by
  refine ⟨?_, fun s => rfl, ?_, ?_⟩
  · intro v q h
    rw [h]
    rfl
  · have hp : parsePriceRaw (getNum0 ({ zeroStock with
        f2 := some (PyVal.pstr "1234") } : Stock).f2) = some ((1234 : ℕ) : ℚ) := rfl
    rw [normPrice, hp]
    norm_num [rescalePrice]
  · rw [normPrice]
    norm_num [getNum0, parsePriceRaw, rescalePrice]

/-- Witness for C5 (amended) at the parsed price 1234. -/
theorem C5_witness :
    parsePriceRaw (PyVal.pstr "1234") = some 1234 ∧
    (parsePriceRaw (PyVal.pstr "1234")).map rescalePrice =
      some (if (1234 : ℚ) < 1 then 1234 * 1000
        else if (1234 : ℚ) > 1000 then 1234 / 1000 else 1234) := by
  have h : parsePriceRaw (PyVal.pstr "1234") = some 1234 := by
    have h0 : parsePriceRaw (PyVal.pstr "1234") = some ((1234 : ℕ) : ℚ) := rfl
    rw [h0]
    norm_num
  exact ⟨h, C5_price_normalization.1 (PyVal.pstr "1234") 1234 h⟩

/-- C6: ranking is a stable descending sort by score followed by truncation:
the result has min(length, top_n) items, is a prefix of the full descending
sort, preserves the relative input order of equal scores (the score-s
subsequence of the sort equals that of the input, for every s), and a list
shorter than top_n is returned whole. -/
theorem C6_rank_spec (l : List Scored) (n : ℕ) :
    (rank l n).length = min l.length n ∧
    rank l n <+: sortDesc l ∧
    ScoreSorted (sortDesc l) ∧
    (∀ s : ℚ, (sortDesc l).filter (fun c => decide (c.score = s)) =
      l.filter (fun c => decide (c.score = s))) ∧
    (l.length ≤ n → rank l n = sortDesc l) := by
  refine ⟨?_, ⟨(sortDesc l).drop n, List.take_append_drop n (sortDesc l)⟩,
    sortDesc_sorted l, sortDesc_stable l, ?_⟩
  · rw [rank, List.length_take, sortDesc_length]
    exact Nat.min_comm n l.length
  · intro h
    rw [rank]
    apply List.take_of_length_le
    rw [sortDesc_length]
    exact h

/-- Witness for C6 on a three-candidate list with a tied score, truncated at
5 (more than its length). -/
theorem C6_witness :
    (rank c6demo 5).length = min c6demo.length 5 ∧ rank c6demo 5 = sortDesc c6demo :=
  ⟨(C6_rank_spec c6demo 5).1, (C6_rank_spec c6demo 5).2.2.2.2 (by decide)⟩

/-- C7 counterexample: scoring two records whose first scores 60 and second
103 returns them in descending-score order [second, first], not in input
order — `score_stocks` sorts before returning (line 418). -/
theorem C7_counterexample :
    (score_stocks defaultScoreConfig [zeroStock, demo103]).map
      (fun r => r.map Scored.base) = some [demo103, zeroStock] ∧
    demo103 ≠ zeroStock := by
  constructor
  · norm_num [score_stocks, optMapM, annotate, scoreInputs, computeScore,
      calculate_continuous_limit_up, sortDesc, insertDesc, demo103, zeroStock,
      defaultScoreConfig, getNum0, pyFloat, min_def]
  · decide

/-- C7 (amended): when the scoring stage succeeds it returns exactly the
candidates it was given — each annotated by `annotate` from its own fields,
with the underlying record unchanged — as a permutation of their annotated
forms sorted in descending score order (not in input order). -/
theorem C7_scoring_annotates_and_sorts (cfg : ScoreConfig) (l : List Stock)
    (r : List Scored) (h : score_stocks cfg l = some r) :
    ∃ ann, optMapM (annotate cfg) l = some ann ∧ r = sortDesc ann ∧
      List.Perm r ann ∧ ScoreSorted r ∧
      ∀ x ∈ r, x.base ∈ l ∧ annotate cfg x.base = some x := by
  unfold score_stocks at h
  cases hm : optMapM (annotate cfg) l with
  | none => rw [hm] at h; cases h
  | some ann =>
    rw [hm] at h
    have hr : r = sortDesc ann := (Option.some.inj h).symm
    refine ⟨ann, rfl, hr, ?_, ?_, ?_⟩
    · rw [hr]; exact sortDesc_perm ann
    · rw [hr]; exact sortDesc_sorted ann
    · intro x hx
      have hxann : x ∈ ann := by
        rw [hr] at hx
        exact (sortDesc_perm ann).mem_iff.mp hx
      obtain ⟨s, hsl, hann⟩ := optMapM_mem hm x hxann
      have hb := annotate_base hann
      rw [hb]
      exact ⟨hsl, hann⟩

/-- Witness for C7 (amended) on a one-record list. -/
theorem C7_witness :
    ∃ ann, optMapM (annotate defaultScoreConfig) [zeroStock] = some ann ∧
      [zeroScored] = sortDesc ann ∧ List.Perm [zeroScored] ann ∧
      ScoreSorted [zeroScored] ∧
      ∀ x ∈ [zeroScored], x.base ∈ [zeroStock] ∧
        annotate defaultScoreConfig x.base = some x :=
  C7_scoring_annotates_and_sorts defaultScoreConfig [zeroStock] [zeroScored]
    (by norm_num [score_stocks, optMapM, annotate, scoreInputs, computeScore,
      calculate_continuous_limit_up, sortDesc, insertDesc, zeroStock, zeroScored,
      defaultScoreConfig, getNum0, pyFloat, min_def, buildReason, fmt2])

theorem pad2_length : ∀ m : ℕ, m < 100 → (pad2 m).length = 2 := by decide

/-- C8: the rationale is the "、"-joined concatenation, in the source's
fixed order, of exactly the clauses whose trigger holds — volume ratio over
1.5, turnover rate over 3, consecutive days over 1, float cap within
[10, 50], turnover amount over 5 — with the literal fallback when none
triggers; and every `fmt2`-formatted clause number carries exactly two
digits after the decimal point. -/
theorem C8_rationale_clauses (vr tr : ℚ) (cl : ℕ) (mcap amt : ℚ) :
    buildReason vr tr cl mcap amt =
      (if 3 / 2 < vr ∨ 3 < tr ∨ 1 < cl ∨ (10 ≤ mcap ∧ mcap ≤ 50) ∨ 5 < amt then
        String.intercalate "、"
          ((if 3 / 2 < vr then ["量比高(" ++ fmt2 vr ++ ")"] else []) ++
            (if 3 < tr then ["换手率高(" ++ fmt2 tr ++ "%)"] else []) ++
            (if 1 < cl then ["连续涨停" ++ toString cl ++ "天"] else []) ++
            (if 10 ≤ mcap ∧ mcap ≤ 50 then ["流通市值适中(" ++ fmt2 mcap ++ "亿)"] else []) ++
            (if 5 < amt then ["成交活跃(" ++ fmt2 amt ++ "亿)"] else []))
      else "综合指标评分") ∧
    (∀ q : ℚ, ∃ a b : String, fmt2 q = a ++ "." ++ b ∧ b.length = 2) := by
  constructor
  · by_cases h1 : (3 : ℚ) / 2 < vr <;> by_cases h2 : (3 : ℚ) < tr <;>
      by_cases h3 : 1 < cl <;> by_cases h4 : (10 : ℚ) ≤ mcap ∧ mcap ≤ 50 <;>
      by_cases h5 : (5 : ℚ) < amt <;>
      simp [buildReason, h1, h2, h3, h4, h5]
  · intro q
    refine ⟨(if Int.floor (q * 100 + 1 / 2) < 0 then "-" else "") ++
        toString ((Int.floor (q * 100 + 1 / 2)).natAbs / 100),
      pad2 ((Int.floor (q * 100 + 1 / 2)).natAbs % 100), ?_, ?_⟩
    · rw [fmt2, String.append_assoc]
    · exact pad2_length _ (Nat.mod_lt _ (by norm_num))

theorem computeScore_mono {cfg : ScoreConfig} {vr1 vr2 : ℚ} (tr amt mcap : ℚ)
    (cl : ℕ) (hw : 0 < cfg.volume_ratio_weight) (hvr : vr1 < vr2) :
    computeScore cfg vr1 tr amt mcap cl < computeScore cfg vr2 tr amt mcap cl := by
  have hm : vr1 * cfg.volume_ratio_weight < vr2 * cfg.volume_ratio_weight :=
    mul_lt_mul_of_pos_right hvr hw
  simp only [computeScore]
  split_ifs <;> linarith

/-- C9: for two candidates identical except for the volume-ratio field,
under any configuration with a strictly positive volume-ratio weight, the
candidate with the larger parsed volume ratio receives the strictly larger
score. -/
theorem C9_score_strict_mono_in_vr (cfg : ScoreConfig) (s1 s2 : Stock)
    (x1 x2 : Scored) (cp vr1 vr2 tr amt mcap : ℚ)
    (hfields : s2 = { s1 with f10 := s2.f10 })
    (h1 : scoreInputs s1 = some (cp, vr1, tr, amt, mcap))
    (h2 : scoreInputs s2 = some (cp, vr2, tr, amt, mcap))
    (ha1 : annotate cfg s1 = some x1) (ha2 : annotate cfg s2 = some x2)
    (hw : 0 < cfg.volume_ratio_weight) (hvr : vr1 < vr2) :
    x1.score < x2.score := by
  rw [annotate_eq h1] at ha1
  rw [annotate_eq h2] at ha2
  obtain rfl := Option.some.inj ha1
  obtain rfl := Option.some.inj ha2
  exact computeScore_mono tr amt mcap _ hw hvr

/-- Witness for C9: volume ratios 1 and 2 under default weights give scores
65 and 70. -/
theorem C9_witness : c9x1.score < c9x2.score :=
  C9_score_strict_mono_in_vr defaultScoreConfig c9s1 c9s2 c9x1 c9x2 10 1 2 0 0 0
    (by decide)
    (by norm_num [scoreInputs, c9s1, zeroStock, getNum0, pyFloat])
    (by norm_num [scoreInputs, c9s2, zeroStock, getNum0, pyFloat])
    (by norm_num [annotate, scoreInputs, computeScore, calculate_continuous_limit_up,
      c9s1, c9x1, zeroStock, defaultScoreConfig, getNum0, pyFloat, min_def,
      buildReason, fmt2])
    (by norm_num [annotate, scoreInputs, computeScore, calculate_continuous_limit_up,
      c9s2, c9x2, zeroStock, defaultScoreConfig, getNum0, pyFloat, min_def,
      buildReason, fmt2] <;> decide)
    (by norm_num [defaultScoreConfig])
    (by norm_num)

/-- C10: an absent raw field is silently defaulted, never a normalization
error: with no `f2` the price normalizes to 0 and the record passes the
price ceiling for every positive `max_price`; with no `f3` the change
percent is 0 and the record fails the limit-up stage for every positive
`min_limit_up_percent`; and with all scoring fields absent the scoring
inputs all read as 0. -/
theorem C10_absent_fields_default (cfg : FilterConfig) (s : Stock) :
    (s.f2 = none → normPrice s = some 0 ∧
      (0 < cfg.max_price → stage4Keep cfg.max_price s = true)) ∧
    (s.f3 = none → normChangePercent s = some 0 ∧
      (0 < cfg.min_limit_up_percent →
        stage5Keep cfg.min_limit_up_percent s = false)) ∧
    (s.f3 = none → s.f10 = none → s.f8 = none → s.f6 = none → s.f20 = none →
      scoreInputs s = some (0, 0, 0, 0, 0)) := by
  refine ⟨?_, ?_, ?_⟩
  · intro h2
    have hp : normPrice s = some 0 := by
      rw [normPrice, h2]
      norm_num [getNum0, parsePriceRaw, rescalePrice]
    refine ⟨hp, fun hmp => ?_⟩
    simp only [stage4Keep, hp, decide_eq_true_eq]
    exact le_of_lt hmp
  · intro h3
    have hc : normChangePercent s = some 0 := by
      rw [normChangePercent, h3]
      norm_num [getNum0, parsePercentRaw]
    refine ⟨hc, fun hmn => ?_⟩
    simp only [stage5Keep, hc, decide_eq_false_iff_not]
    exact not_le_of_lt hmn
  · intro h3 h10 h8 h6 h20
    rw [scoreInputs, h3, h10, h8, h6, h20]
    norm_num [getNum0, pyFloat]

/-- Witness for C10 on a record with no optional fields, at the default
filter configuration. -/
theorem C10_witness :
    emptyStock.f2 = none ∧ normPrice emptyStock = some 0 ∧
    stage4Keep defaultFilterConfig.max_price emptyStock = true ∧
    stage5Keep defaultFilterConfig.min_limit_up_percent emptyStock = false ∧
    scoreInputs emptyStock = some (0, 0, 0, 0, 0) :=
  ⟨rfl,
    ((C10_absent_fields_default defaultFilterConfig emptyStock).1 rfl).1,
    ((C10_absent_fields_default defaultFilterConfig emptyStock).1 rfl).2
      (by norm_num [defaultFilterConfig]),
    ((C10_absent_fields_default defaultFilterConfig emptyStock).2.1 rfl).2
      (by norm_num [defaultFilterConfig]),
    (C10_absent_fields_default defaultFilterConfig emptyStock).2.2 rfl rfl rfl rfl rfl⟩
